import Mathlib

/-!
Verification of the control logic in `docker/pgosm_flex.py` (pgosm-flex).

The Python script orchestrates downloading OpenStreetMap PBF extracts,
archiving/restoring them in a dated cache, verifying checksums, polling
Postgres readiness, and running the osm2pgsql import.  The definitions
below are a shallow embedding of those functions: pure string functions
are translated directly; functions that touch the filesystem or spawn
subprocesses are modelled by passing the observable state explicitly
(existence/contents of the four files involved, outcome of a subprocess)
and returning the resulting state together with an `Except` outcome that
mirrors the Python exception behaviour.
-/

namespace PgosmFlex

/-- Python exceptions raised by the script, by class. -/
inductive PyError where
  | fileNotFound (msg : String)
  | attributeError (msg : String)
  | calledProcess (msg : String)
  deriving DecidableEq, Repr

/-- Observable side-effecting operations performed by a run, in order. -/
inductive Action where
  | download
  | archive
  | unarchive
  | verify
  | waitPostgres
  | prepareDb
  | runOsm2pgsql
  deriving DecidableEq, Repr

/-- `True`-like test used below: `Except.ok` detector. -/
def resultIsOk : Except PyError Unit → Bool
  | .ok _ => true
  | .error _ => false

/-- Detects a `FileNotFoundError` outcome. -/
def resultIsFileNotFound : Except PyError Unit → Bool
  | .error (.fileNotFound _) => true
  | _ => false

/-- Python `s.replace('/', '-')` for the single-character pattern used by
the script: every slash becomes a hyphen. -/
def replaceSlash (s : String) : String :=
  String.mk (s.data.map (fun c => if c = '/' then '-' else c))

/-- Embedding of `get_region_filename(region, subregion)`
(`pgosm_flex.py` lines 317-335).  `none` models Python `None`. -/
def get_region_filename (region : String) (subregion : Option String) : String :=
  match subregion with
  | none => region ++ "-latest.osm.pbf"
  | some sub => sub ++ "-latest.osm.pbf"

/-- Embedding of `get_export_filename(region, subregion, layerset, pgosm_date)`
(`pgosm_flex.py` lines 338-359).  The source executes
`subregion = subregion.replace('/', '-')` (line 353) *before* testing
`if subregion is None` (line 354), so when `subregion` is `None` the call
raises `AttributeError` and the `None` branch of the conditional is dead
code.  The embedding reproduces this faithfully. -/
def get_export_filename (region : String) (subregion : Option String)
    (layerset pgosm_date : String) : Except PyError String :=
  let region2 := replaceSlash region
  match subregion with
  | none =>
      .error (.attributeError "NoneType object has no attribute replace")
  | some sub =>
      let sub2 := replaceSlash sub
      .ok ("pgosm-flex-" ++ region2 ++ "-" ++ sub2 ++ "-" ++ layerset ++ "-"
            ++ pgosm_date ++ ".sql")

/-- Embedding of `get_pbf_url(region, subregion)`
(`pgosm_flex.py` lines 362-381). -/
def get_pbf_url (region : String) (subregion : Option String) : String :=
  let base_url := "https://download.geofabrik.de"
  match subregion with
  | none => base_url ++ "/" ++ region ++ "-latest.osm.pbf"
  | some sub => base_url ++ "/" ++ region ++ "/" ++ sub ++ "-latest.osm.pbf"

/-- A parsed INI file: a list of sections, each a name together with its
key/value pairs (configparser values are always strings). -/
def IniConfig := List (String × List (String × String))

/-- `config[section][key]` lookup; `none` models the `KeyError` path. -/
def config_get (config : IniConfig) (sec key : String) : Option String :=
  match List.find? (fun p => p.1 = sec) config with
  | none => none
  | some se => Option.map (fun p => p.2) (List.find? (fun p => p.1 = key) se.2)

/-- Embedding of `check_layerset_places(layerset_path, layerset, paths)`
(`pgosm_flex.py` lines 665-700).  Input is the INI file content as read
by `configparser`: `none` models a missing/unreadable file, which
`ConfigParser.read` silently ignores, leaving an empty config.  The
source then looks up `config['layerset']['place']`; a `KeyError` returns
`True`.  Otherwise the source tests `if place:` on the *string* value,
which is truthy exactly when non-empty, returning `False` for any
non-empty value and `True` for the empty string. -/
def check_layerset_places (iniFile : Option IniConfig) : Bool :=
  let config : IniConfig := match iniFile with
    | none => []
    | some c => c
  match config_get config "layerset" "place" with
  | none => true
  | some place => if place = "" then true else false

/-- Outcome of the `wait_for_postgres` polling loop, recording how many
times `db.pg_isready` was invoked and how many `time.sleep(5)` calls
occurred.  `timeoutSoft` is the `i > max_loops` exit (line 399),
`timeoutHard` the `i > 100` exit (line 413). -/
inductive PollResult where
  | success (checks sleeps : Nat)
  | timeoutSoft (checks sleeps : Nat)
  | timeoutHard (checks sleeps : Nat)
  deriving DecidableEq, Repr

/-- Embedding of the `while found < required_checks` loop of
`wait_for_postgres` (`pgosm_flex.py` lines 393-417) with
`required_checks = 2` and `max_loops = 30` inlined as in the source.
`check k` gives the result of the `(k+1)`-th `db.pg_isready` call.
Each iteration sleeps once (line 404) and then performs one check
(line 406); `checks` and `sleeps` count those events so far. -/
def waitLoop (check : Nat → Bool) (found i checks sleeps : Nat) : PollResult :=
  if 2 ≤ found then .success checks sleeps
  else if h : 30 < i then .timeoutSoft checks sleeps
  else
    let found2 := if check checks then found + 1 else found
    if 100 < i then .timeoutHard (checks + 1) (sleeps + 1)
    else waitLoop check found2 (i + 1) (checks + 1) (sleeps + 1)
termination_by 31 - i
decreasing_by simp_wf; omega

/-- Embedding of `wait_for_postgres` (lines 384-419): the loop starts
with `found = 0`, `i = 0` and no checks or sleeps performed. -/
def wait_for_postgres (check : Nat → Bool) : PollResult :=
  waitLoop check 0 0 0 0

/-- Number of `true` results of `check` on the index interval
`[c, c + m)`. -/
def countTrue (check : Nat → Bool) : Nat → Nat → Nat
  | _, 0 => 0
  | c, m + 1 => (if check c then 1 else 0) + countTrue check (c + 1) m

/-- Embedding of `pbf_download_needed(pbf_file_with_date, md5_file_with_date,
pgosm_date)` (`pgosm_flex.py` lines 462-499).  `pbfDatedExists` and
`md5DatedExists` model `os.path.exists` on the two dated files;
`isToday` models `pgosm_date == get_today()`. -/
def pbf_download_needed (pbfDatedExists md5DatedExists isToday : Bool) :
    Except PyError Bool :=
  if pbfDatedExists then
    if md5DatedExists then
      .ok false
    else
      if isToday then .ok true
      else .error (.fileNotFound "Missing MD5 file. Cannot validate.")
  else
    if !isToday then .error (.fileNotFound "Missing PBF file. Cannot proceed.")
    else .ok true

/-- Embedding of `verify_checksum(md5_file, paths)` (lines 536-548):
`md5sum -c` is run with `check=True`, so a failed verification raises
`CalledProcessError`.  `checksumOk` models the exit status. -/
def verify_checksum (checksumOk : Bool) : Except PyError Unit :=
  if checksumOk then .ok () else .error (.calledProcess "md5sum -c failed")

/-- Embedding of `prepare_data(region, subregion, pgosm_date, paths)`
(lines 422-459) at the level of observable operations: it asks
`pbf_download_needed`; on `true` it downloads and archives, on `false`
it restores from the dated cache, and in both cases it then verifies the
checksum.  An exception stops the sequence and propagates.  The returned
list is the trace of operations performed. -/
def prepare_data (pbfDatedExists md5DatedExists isToday checksumOk : Bool) :
    List Action × Except PyError Unit :=
  match pbf_download_needed pbfDatedExists md5DatedExists isToday with
  | .error e => ([], .error e)
  | .ok true =>
    match verify_checksum checksumOk with
    | .ok _ => ([.download, .archive, .verify], .ok ())
    | .error e => ([.download, .archive, .verify], .error e)
  | .ok false =>
    match verify_checksum checksumOk with
    | .ok _ => ([.unarchive, .verify], .ok ())
    | .error e => ([.unarchive, .verify], .error e)

/-- Embedding of the data path of `run_pgosm_flex` (lines 126-145) when no
`--input-file` is given: `prepare_data` runs first; only if it returns
normally does the run proceed to `wait_for_postgres`,
`db.prepare_pgosm_db` and `run_osm2pgsql` (the osm2pgsql import).  The
steps after the import do not matter for the claims and are omitted; the
three intermediate steps are modelled as succeeding, which is the worst
case for reaching the import. -/
def run_pgosm_flex (pbfDatedExists md5DatedExists isToday checksumOk : Bool) :
    List Action × Except PyError Unit :=
  match prepare_data pbfDatedExists md5DatedExists isToday checksumOk with
  | (acts, .error e) => (acts, .error e)
  | (acts, .ok _) =>
      (acts ++ [.waitPostgres, .prepareDb, .runOsm2pgsql], .ok ())

/-- The four files `prepare_data`/`archive_data`/`unarchive_data`/
`remove_latest_files` manipulate: the logical (`-latest`) PBF and MD5
files and their dated counterparts.  `none` means the file does not
exist; `some c` is its content. -/
structure FS where
  pbfLatest : Option String
  md5Latest : Option String
  pbfDated : Option String
  md5Dated : Option String
  deriving DecidableEq, Repr

/-- Embedding of `archive_data(pbf_file, md5_file, pbf_file_with_date,
md5_file_with_date)` (lines 552-573): each dated file is written by
`shutil.copy2` only when it does not already exist; `copy2` raises
`FileNotFoundError` when its source is missing.  Returns the filesystem
state when the function stops, plus the outcome. -/
def archive_data (fs : FS) : FS × Except PyError Unit :=
  let step1 : FS × Except PyError Unit :=
    if fs.pbfDated.isSome then (fs, .ok ())
    else
      match fs.pbfLatest with
      | none => (fs, .error (.fileNotFound "copy2: pbf_file missing"))
      | some c => ({ fs with pbfDated := some c }, .ok ())
  match step1 with
  | (fs1, .error e) => (fs1, .error e)
  | (fs1, .ok _) =>
    if fs1.md5Dated.isSome then (fs1, .ok ())
    else
      match fs1.md5Latest with
      | none => (fs1, .error (.fileNotFound "copy2: md5_file missing"))
      | some c => ({ fs1 with md5Dated := some c }, .ok ())

/-- Embedding of `unarchive_data(pbf_file, md5_file, pbf_file_with_date,
md5_file_with_date)` (lines 576-600): always copies the dated pair onto
the logical paths via `shutil.copy2`, overwriting whatever is there;
`copy2` raises `FileNotFoundError` when the dated source is missing. -/
def unarchive_data (fs : FS) : FS × Except PyError Unit :=
  match fs.pbfDated with
  | none => (fs, .error (.fileNotFound "copy2: pbf_file_with_date missing"))
  | some p =>
    let fs1 := { fs with pbfLatest := some p }
    match fs1.md5Dated with
    | none => (fs1, .error (.fileNotFound "copy2: md5_file_with_date missing"))
    | some m => ({ fs1 with md5Latest := some m }, .ok ())

/-- Embedding of `remove_latest_files(region, subregion, paths)`
(lines 603-621): `os.remove` on the logical PBF, then `os.remove` on the
logical MD5; `os.remove` raises `FileNotFoundError` when the file is
absent.  The dated files are not touched. -/
def remove_latest_files (fs : FS) : FS × Except PyError Unit :=
  match fs.pbfLatest with
  | none => (fs, .error (.fileNotFound "os.remove: pbf_file missing"))
  | some _ =>
    let fs1 := { fs with pbfLatest := none }
    match fs1.md5Latest with
    | none => (fs1, .error (.fileNotFound "os.remove: md5_file missing"))
    | some _ => ({ fs1 with md5Latest := none }, .ok ())

/-- One-step unfolding of `waitLoop`: pass requirement met. -/
theorem waitLoop_done (check : Nat → Bool) (found i c s : Nat) (h : 2 ≤ found) :
    waitLoop check found i c s = .success c s := by
  rw [waitLoop]
  simp [h]

/-- One-step unfolding of `waitLoop`: soft iteration bound exceeded. -/
theorem waitLoop_soft (check : Nat → Bool) (found i c s : Nat)
    (h1 : found < 2) (h2 : 30 < i) :
    waitLoop check found i c s = .timeoutSoft c s := by
  rw [waitLoop]
  simp [h2, Nat.not_le.mpr h1]

/-- One-step unfolding of `waitLoop`: a full iteration (one sleep, one
check) when neither exit condition holds. -/
theorem waitLoop_step (check : Nat → Bool) (found i c s : Nat)
    (h1 : found < 2) (h2 : i ≤ 30) :
    waitLoop check found i c s =
      waitLoop check (if check c then found + 1 else found)
        (i + 1) (c + 1) (s + 1) := by
  rw [waitLoop]
  have hx : ¬ 2 ≤ found := Nat.not_le.mpr h1
  have hy : ¬ 30 < i := Nat.not_lt.mpr h2
  have hz : ¬ 100 < i := by omega
  simp [hx, hy, hz]

/-- Running `waitLoop` across `m` consecutive failing checks advances the
iteration, check and sleep counters by `m` without changing `found`. -/
theorem waitLoop_skip_failures (check : Nat → Bool) :
    ∀ (m found i c s : Nat), found < 2 → i + m ≤ 31 →
      (∀ k, k < m → check (c + k) = false) →
      waitLoop check found i c s = waitLoop check found (i + m) (c + m) (s + m) := by
  intro m
  induction m with
  | zero => intro found i c s _ _ _; rfl
  | succ m ih =>
    intro found i c s h1 h2 hf
    rw [waitLoop_step check found i c s h1 (by omega)]
    have hc : check c = false := by simpa using hf 0 (by omega)
    rw [hc]
    simp only [Bool.false_eq_true, if_false]
    have hf2 : ∀ k, k < m → check (c + 1 + k) = false := by
      intro k hk
      have : c + 1 + k = c + (k + 1) := by omega
      rw [this]
      exact hf (k + 1) (by omega)
    have := ih found (i + 1) (c + 1) (s + 1) h1 (by omega) hf2
    rw [this]
    have e1 : i + 1 + m = i + (m + 1) := by omega
    have e2 : c + 1 + m = c + (m + 1) := by omega
    have e3 : s + 1 + m = s + (m + 1) := by omega
    rw [e1, e2, e3]

/-- `countTrue` splits over adjacent intervals. -/
theorem countTrue_split (check : Nat → Bool) :
    ∀ (p c q : Nat),
      countTrue check c (p + q) = countTrue check c p + countTrue check (c + p) q := by
  intro p
  induction p with
  | zero => intro c q; simp [countTrue]
  | succ p ih =>
    intro c q
    have e1 : p + 1 + q = (p + q) + 1 := by omega
    rw [e1]
    simp only [countTrue]
    rw [ih (c + 1) q]
    have e2 : c + 1 + p = c + (p + 1) := by omega
    rw [e2]
    omega

/-- A `true` check inside the interval makes `countTrue` positive. -/
theorem countTrue_pos (check : Nat → Bool) :
    ∀ (m c j : Nat), j < m → check (c + j) = true → 1 ≤ countTrue check c m := by
  intro m
  induction m with
  | zero => intro c j hj _; omega
  | succ m ih =>
    intro c j hj hc
    simp only [countTrue]
    match j, hj with
    | 0, _ =>
      simp only [Nat.add_zero] at hc
      simp [hc]
    | j + 1, hj =>
      have : c + 1 + j = c + (j + 1) := by omega
      have h1 := ih (c + 1) j (by omega) (by rw [this]; exact hc)
      omega

/-- If enough successes remain within the iteration budget, `waitLoop`
returns `success`: the pass counter only grows on a success and is never
reset, so any two successes inside the bound suffice. -/
theorem waitLoop_reaches_success (check : Nat → Bool) :
    ∀ (m found i c s : Nat), i + m ≤ 31 →
      2 ≤ found + countTrue check c m →
      ∃ cs ss, waitLoop check found i c s = .success cs ss := by
  intro m
  induction m with
  | zero =>
    intro found i c s _ hcount
    simp only [countTrue] at hcount
    exact ⟨c, s, waitLoop_done check found i c s (by omega)⟩
  | succ m ih =>
    intro found i c s hi hcount
    by_cases hfound : 2 ≤ found
    · exact ⟨c, s, waitLoop_done check found i c s hfound⟩
    · rw [waitLoop_step check found i c s (by omega) (by omega)]
      simp only [countTrue] at hcount
      apply ih (if check c then found + 1 else found) (i + 1) (c + 1) (s + 1) (by omega)
      by_cases hc : check c = true
      · simp only [hc, if_true] at hcount ⊢
        omega
      · simp only [Bool.not_eq_true] at hc
        simp only [hc, Bool.false_eq_true, if_false] at hcount ⊢
        omega

/-- The hard-bound exit (`i > 100`) of the polling loop is unreachable:
it is guarded by the earlier `i > 30` exit in the same iteration. -/
theorem waitLoop_no_hard (check : Nat → Bool) :
    ∀ (d found i c s : Nat), 31 - i ≤ d →
      ∀ cs ss, waitLoop check found i c s ≠ .timeoutHard cs ss := by
  intro d
  induction d with
  | zero =>
    intro found i c s hd cs ss
    by_cases hfound : 2 ≤ found
    · rw [waitLoop_done check found i c s hfound]; simp
    · rw [waitLoop_soft check found i c s (by omega) (by omega)]; simp
  | succ d ih =>
    intro found i c s hd cs ss
    by_cases hfound : 2 ≤ found
    · rw [waitLoop_done check found i c s hfound]; simp
    · by_cases hi : 30 < i
      · rw [waitLoop_soft check found i c s (by omega) hi]; simp
      · rw [waitLoop_step check found i c s (by omega) (by omega)]
        exact ih (if check c then found + 1 else found) (i + 1) (c + 1) (s + 1)
          (by omega) cs ss

/-- Claim C1: with a subregion present, `get_export_filename` returns
`pgosm-flex-{region}-{subregion}-{layerset}-{date}.sql` with slashes in
region and subregion replaced by hyphens; but with the subregion absent
the source raises `AttributeError` at `subregion.replace` (line 353)
before the `if subregion is None` test, so the claimed
`pgosm-flex-{region}-{layerset}-{date}.sql` branch is dead code.  This
theorem evaluates the embedding at the failing input. -/
theorem C1_export_filename_none_raises :
    (∀ (r sub l d : String),
      get_export_filename r (some sub) l d =
        .ok ("pgosm-flex-" ++ replaceSlash r ++ "-" ++ replaceSlash sub
              ++ "-" ++ l ++ "-" ++ d ++ ".sql")) ∧
    get_export_filename "north-america/us" none "default" "2025-01-01" =
      .error (.attributeError "NoneType object has no attribute replace") := by
  exact ⟨fun r sub l d => rfl, rfl⟩

/-- Claim C2: the source tests `if place:` on the configparser *string*
value, which is truthy for every non-empty string.  A layerset file with
`place = false` therefore returns `skip_nested = False`, contradicting
the claim (and the source's own comments) that `place = false` yields
`skip_nested = True`.  The other cases (`place = true`, key absent, file
missing, empty value) behave as claimed.  This theorem evaluates the
embedding on all five inputs, including the failing one. -/
theorem C2_layerset_place_false_is_truthy :
    check_layerset_places (some [("layerset", [("place", "false")])]) = false ∧
    check_layerset_places (some [("layerset", [("place", "true")])]) = false ∧
    check_layerset_places (some [("layerset", [])]) = true ∧
    check_layerset_places none = true ∧
    check_layerset_places (some [("layerset", [("place", "")])]) = true := by
  refine ⟨rfl, rfl, rfl, rfl, rfl⟩

/-- Claim C3 counterexample: with a check that fails its first `N = 0`
times and then succeeds twice consecutively, the claim predicts success
after 2 checks and exactly `N + 1 = 1` sleeps; the code sleeps before
*every* check (line 404 precedes line 406), so it performs 2 sleeps. -/
theorem C3_sleeps_counterexample :
    wait_for_postgres (fun _ => true) = PollResult.success 2 2 ∧
    ¬ wait_for_postgres (fun _ => true) = PollResult.success 2 1 := by
  have h : wait_for_postgres (fun _ => true) = PollResult.success 2 2 := by
    unfold wait_for_postgres
    rw [waitLoop_step (fun _ => true) 0 0 0 0 (by omega) (by omega)]
    rw [show (if (fun _ : Nat => true) 0 then 0 + 1 else 0) = 1 from rfl]
    rw [waitLoop_step (fun _ => true) 1 1 1 1 (by omega) (by omega)]
    rw [show (if (fun _ : Nat => true) 1 then 1 + 1 else 1) = 2 from rfl]
    exact waitLoop_done (fun _ => true) 2 2 2 2 (by omega)
  refine ⟨h, ?_⟩
  rw [h]
  simp

/-- Claim C3 as amended: if the check fails on its first `N` invocations
(`N` below the soft bound of 30) and then succeeds twice consecutively,
`wait_for_postgres` returns success after exactly `N + 2` check
invocations and `N + 2` sleeps (one sleep precedes every check). -/
theorem C3_success_after_n_plus_2 (check : Nat → Bool) (N : Nat)
    (hN : N < 30) (hfail : ∀ k, k < N → check k = false)
    (hs1 : check N = true) (hs2 : check (N + 1) = true) :
    wait_for_postgres check = PollResult.success (N + 2) (N + 2) := by
  unfold wait_for_postgres
  rw [waitLoop_skip_failures check N 0 0 0 0 (by omega) (by omega)
    (fun k hk => by simpa using hfail k hk)]
  simp only [Nat.zero_add]
  rw [waitLoop_step check 0 N N N (by omega) (by omega)]
  rw [hs1]
  simp only [if_true]
  rw [waitLoop_step check 1 (N + 1) (N + 1) (N + 1) (by omega) (by omega)]
  rw [hs2]
  simp only [if_true]
  exact waitLoop_done check 2 (N + 2) (N + 2) (N + 2) (by omega)

/-- Witness for C3 at `N = 3`. -/
theorem C3_success_after_n_plus_2_witness :
    wait_for_postgres (fun k => decide (3 ≤ k)) = PollResult.success 5 5 :=
  C3_success_after_n_plus_2 (fun k => decide (3 ≤ k)) 3 (by omega)
    (by decide) (by decide) (by decide)

/-- Claim C4: for a historical run date (`isToday = false`), a missing
dated PBF, or a present dated PBF with a missing dated MD5, makes
`prepare_data` abort with `FileNotFoundError` before any download
occurs: the trace contains no download action. -/
theorem C4_historical_missing_artifact_aborts
    (pbfDated md5Dated checksumOk : Bool)
    (h : pbfDated = false ∨ md5Dated = false) :
    resultIsFileNotFound (prepare_data pbfDated md5Dated false checksumOk).2 = true ∧
    Action.download ∉ (prepare_data pbfDated md5Dated false checksumOk).1 := by
  rcases h with h | h
  · subst h
    revert md5Dated checksumOk
    decide
  · subst h
    revert pbfDated checksumOk
    decide

/-- Witness for C4: historical date, both dated files missing. -/
theorem C4_historical_missing_artifact_aborts_witness :
    resultIsFileNotFound (prepare_data false false false true).2 = true ∧
    Action.download ∉ (prepare_data false false false true).1 :=
  C4_historical_missing_artifact_aborts false false true (Or.inl rfl)

/-- Claim C5: whenever checksum verification fails
(`checksumOk = false`), the run aborts with an error and the osm2pgsql
invocation of the data load never appears in the trace, for every
filesystem state and run date. -/
theorem C5_checksum_failure_blocks_osm2pgsql
    (pbfDated md5Dated isToday : Bool) :
    Action.runOsm2pgsql ∉ (run_pgosm_flex pbfDated md5Dated isToday false).1 ∧
    resultIsOk (run_pgosm_flex pbfDated md5Dated isToday false).2 = false := by
  revert pbfDated md5Dated isToday
  decide

/-- Claim C6: `archive_data` never touches the logical files and never
overwrites an existing dated file, copying latest onto dated only when
the dated file is absent; `unarchive_data` always copies the dated pair
onto the logical paths (overwriting whatever is there) and leaves the
dated files unchanged. -/
theorem C6_archive_write_once_unarchive_overwrites (fs : FS) :
    (archive_data fs).1.pbfLatest = fs.pbfLatest ∧
    (archive_data fs).1.md5Latest = fs.md5Latest ∧
    (fs.pbfDated.isSome = true → (archive_data fs).1.pbfDated = fs.pbfDated) ∧
    (fs.md5Dated.isSome = true → (archive_data fs).1.md5Dated = fs.md5Dated) ∧
    (fs.pbfDated = none → fs.pbfLatest.isSome = true →
       (archive_data fs).1.pbfDated = fs.pbfLatest) ∧
    (fs.md5Dated = none → fs.md5Latest.isSome = true →
       (fs.pbfDated.isSome = true ∨ fs.pbfLatest.isSome = true) →
       (archive_data fs).1.md5Dated = fs.md5Latest) ∧
    (fs.pbfDated.isSome = true → fs.md5Dated.isSome = true →
       unarchive_data fs =
         ({ fs with pbfLatest := fs.pbfDated, md5Latest := fs.md5Dated },
           Except.ok ())) ∧
    (unarchive_data fs).1.pbfDated = fs.pbfDated ∧
    (unarchive_data fs).1.md5Dated = fs.md5Dated := by
  obtain ⟨pl, ml, pd, md⟩ := fs
  rcases pl with _ | pl <;> rcases ml with _ | ml <;>
    rcases pd with _ | pd <;> rcases md with _ | md <;>
    simp [archive_data, unarchive_data]

/-- Witness for C6: restore-from-cache onto absent logical files. -/
theorem C6_archive_write_once_unarchive_overwrites_witness :
    unarchive_data ⟨none, none, some "P", some "M"⟩ =
      (⟨some "P", some "M", some "P", some "M"⟩, Except.ok ()) :=
  (C6_archive_write_once_unarchive_overwrites
    ⟨none, none, some "P", some "M"⟩).2.2.2.2.2.2.1 rfl rfl

/-- Claim C7: the pass counter only grows on a success and a failure
never resets it, so any two successes (not necessarily consecutive)
within the iteration bound make the poller return success. -/
theorem C7_nonconsecutive_passes_suffice (check : Nat → Bool) (a b : Nat)
    (hab : a < b) (hb : b ≤ 30)
    (ha : check a = true) (hbt : check b = true) :
    ∃ cs ss, wait_for_postgres check = PollResult.success cs ss := by
  unfold wait_for_postgres
  apply waitLoop_reaches_success check (b + 1) 0 0 0 0 (by omega)
  have e : b + 1 = (a + 1) + (b - a) := by omega
  rw [e, countTrue_split check (a + 1) 0 (b - a)]
  have h1 : 1 ≤ countTrue check 0 (a + 1) :=
    countTrue_pos check (a + 1) 0 a (by omega) (by simpa using ha)
  have h2 : 1 ≤ countTrue check (0 + (a + 1)) (b - a) := by
    apply countTrue_pos check (b - a) (0 + (a + 1)) (b - a - 1) (by omega)
    have e2 : 0 + (a + 1) + (b - a - 1) = b := by omega
    rw [e2]
    exact hbt
  omega

/-- Witness for C7: passes at indices 0 and 5 only. -/
theorem C7_nonconsecutive_passes_suffice_witness :
    ∃ cs ss, wait_for_postgres (fun k => decide (k = 0 ∨ k = 5)) =
      PollResult.success cs ss :=
  C7_nonconsecutive_passes_suffice (fun k => decide (k = 0 ∨ k = 5)) 0 5
    (by omega) (by omega) (by decide) (by decide)

/-- Claim C8: with a check that always fails, the poller exits through
the soft bound (`i > 30`) after 31 checks and 31 sleeps; and the hard
bound branch (`i > 100`) is unreachable from every loop state, since it
is guarded by the earlier `i > 30` exit. -/
theorem C8_soft_bound_fires_hard_branch_dead :
    wait_for_postgres (fun _ => false) = PollResult.timeoutSoft 31 31 ∧
    ∀ (check : Nat → Bool) (found i c s cs ss : Nat),
      waitLoop check found i c s ≠ PollResult.timeoutHard cs ss := by
  constructor
  · unfold wait_for_postgres
    rw [waitLoop_skip_failures (fun _ => false) 31 0 0 0 0 (by omega) (by omega)
      (fun k _ => rfl)]
    simp only [Nat.zero_add]
    exact waitLoop_soft (fun _ => false) 0 31 31 31 (by omega) (by omega)
  · intro check found i c s cs ss
    exact waitLoop_no_hard check (31 - i) found i c s (le_refl _) cs ss

/-- Witness for C8 at a concrete loop state beyond the soft bound. -/
theorem C8_soft_bound_fires_hard_branch_dead_witness :
    waitLoop (fun _ => false) 0 50 7 7 ≠ PollResult.timeoutHard 7 7 :=
  C8_soft_bound_fires_hard_branch_dead.2 (fun _ => false) 0 50 7 7 7 7

/-- Claim C9: `get_region_filename` and `get_pbf_url` are pure functions
of their arguments (repeated application yields the same string, which
in this embedding is definitional) and produce the claimed shapes for
present and absent subregions. -/
theorem C9_filename_and_url_pure_shapes (region sub : String) :
    get_region_filename region (some sub) = sub ++ "-latest.osm.pbf" ∧
    get_region_filename region none = region ++ "-latest.osm.pbf" ∧
    get_pbf_url region (some sub) =
      "https://download.geofabrik.de" ++ "/" ++ region ++ "/" ++ sub
        ++ "-latest.osm.pbf" ∧
    get_pbf_url region none =
      "https://download.geofabrik.de" ++ "/" ++ region ++ "-latest.osm.pbf" ∧
    (∀ s2 : Option String,
      get_region_filename region s2 = get_region_filename region s2 ∧
      get_pbf_url region s2 = get_pbf_url region s2) := by
  exact ⟨rfl, rfl, rfl, rfl, fun _ => ⟨rfl, rfl⟩⟩

/-- Claim C10: when both logical files exist, `remove_latest_files`
deletes exactly those two and leaves the dated files untouched; when
either is absent it raises `FileNotFoundError`; the dated files are
never modified. -/
theorem C10_remove_latest_exact_and_total (fs : FS) :
    (fs.pbfLatest.isSome = true → fs.md5Latest.isSome = true →
       remove_latest_files fs =
         ({ fs with pbfLatest := none, md5Latest := none }, Except.ok ())) ∧
    ((fs.pbfLatest = none ∨ fs.md5Latest = none) →
       resultIsFileNotFound (remove_latest_files fs).2 = true) ∧
    (remove_latest_files fs).1.pbfDated = fs.pbfDated ∧
    (remove_latest_files fs).1.md5Dated = fs.md5Dated := by
  obtain ⟨pl, ml, pd, md⟩ := fs
  rcases pl with _ | pl <;> rcases ml with _ | ml <;>
    simp [remove_latest_files, resultIsFileNotFound]

/-- Witness for C10 with both logical files present. -/
theorem C10_remove_latest_exact_and_total_witness :
    remove_latest_files ⟨some "P", some "M", some "DP", some "DM"⟩ =
      (⟨none, none, some "DP", some "DM"⟩, Except.ok ()) :=
  (C10_remove_latest_exact_and_total
    ⟨some "P", some "M", some "DP", some "DM"⟩).1 rfl rfl

end PgosmFlex
